import Mathlib

/-!
Verification of the GameMoments session and data-integrity engine
(`src/app.js`) against its specification.

The JavaScript source is shallowly embedded: the mutable session globals
(`currentGame`, `currentEvents`, `currentHalf`, `clockSeconds`,
`clockInterval`, `gameActive`) become one `SessionState` record, the
IndexedDB `events` object store (keyed by `event_id`) becomes a list of
records with insert-or-replace `dbPut` and delete-by-key `dbDelete`, and
each handler becomes a state-passing function.  Nondeterministic inputs
(`Date.now()`-based ids, `new Date().toISOString()` timestamps) are passed
in as parameters.  JavaScript numbers occurring here are integers
throughout (`clockSeconds` counts seconds, offsets come from `parseInt`),
so they are modelled with `Nat`/`Int`.
-/

namespace GameMoments

/-- Game record, as persisted in the `games` store (`startGame`,
`src/app.js:278-283`). -/
structure Game where
  game_id : String
  date : String
  opponent : String
  logger_name : String
  deriving DecidableEq, Repr

/-- Event record, as persisted in the `events` store (`logEvent`,
`src/app.js:374-381`).  `t_half_seconds` is an `Int` because
`applyTimeAdjust` computes `e.t_half_seconds + adj` with a possibly
negative offset before clamping. -/
structure Event where
  event_id : String
  game_id : String
  half : Nat
  t_half_seconds : Int
  event_code : String
  created_at : String
  deriving DecidableEq, Repr

/-- The in-memory session globals of `src/app.js:57-64` plus the `events`
object store.  `clockRunning` stands for `clockInterval !== null`. -/
structure SessionState where
  currentGame : Option Game
  currentEvents : List Event
  currentHalf : Nat
  clockSeconds : Nat
  clockRunning : Bool
  gameActive : Bool
  eventStore : List Event
  deriving DecidableEq, Repr

/-- IndexedDB `put` on the `events` store (keyPath `event_id`):
insert-or-replace by key (`dbPut`, `src/app.js:120-127`). -/
def dbPut (store : List Event) (ev : Event) : List Event :=
  if store.any (fun e => e.event_id == ev.event_id) then
    store.map (fun e => if e.event_id == ev.event_id then ev else e)
  else store ++ [ev]

/-- IndexedDB `delete` by key on the `events` store (`dbDelete`,
`src/app.js:151-158`). -/
def dbDelete (store : List Event) (key : String) : List Event :=
  store.filter (fun e => e.event_id != key)

/-- Scoreboard recomputation (`updateScoreboard`, `src/app.js:356-364`):
a loop over `currentEvents` counting `GOAL_PFC` and `GOAL_OPP`. -/
def updateScoreboard (events : List Event) : Nat × Nat :=
  events.foldl
    (fun acc e =>
      if e.event_code = "GOAL_PFC" then (acc.1 + 1, acc.2)
      else if e.event_code = "GOAL_OPP" then (acc.1, acc.2 + 1)
      else acc)
    (0, 0)

/-- Score shown on the review surface (`openReviewScreen`,
`src/app.js:520-521`): counts over the full, unfiltered `currentEvents`
list — the function takes no filter settings at all. -/
def reviewScore (events : List Event) : Nat × Nat :=
  ((events.filter (fun e => e.event_code = "GOAL_PFC")).length,
   (events.filter (fun e => e.event_code = "GOAL_OPP")).length)

/-- Event construction and append (`logEvent`, `src/app.js:371-403`).
Guard: `if (!currentGame || !gameActive) return;`.  The fresh id and the
`created_at` timestamp are parameters.  The appended event is also written
through to the store (`dbPut(STORE_EVENTS, event)`); DOM/haptic feedback
is out of scope. -/
def logEvent (eventCode freshId createdAt : String) (st : SessionState) :
    SessionState :=
  match st.currentGame with
  | none => st
  | some g =>
    if st.gameActive = false then st
    else
      let event : Event :=
        { event_id := freshId
          game_id := g.game_id
          half := st.currentHalf
          t_half_seconds := (st.clockSeconds : Int)
          event_code := eventCode
          created_at := createdAt }
      { st with
          currentEvents := st.currentEvents ++ [event]
          eventStore := dbPut st.eventStore event }

/-- Undo (`undoLastEvent`, `src/app.js:406-419`): no-op with a toast when
the list is empty, otherwise `currentEvents.pop()` followed by
`dbDelete(STORE_EVENTS, last.event_id)`. -/
def undoLastEvent (st : SessionState) : SessionState :=
  match st.currentEvents.getLast? with
  | none => st
  | some last =>
      { st with
          currentEvents := st.currentEvents.dropLast
          eventStore := dbDelete st.eventStore last.event_id }

/-- Review filter (`getFilteredEvents`, `src/app.js:542-553`).  The three
select values are modelled with `none` for `'all'`: `half` is the parsed
half number, `team` the side so that the code tests
`e.event_code.endsWith('_' + team)`, `type` the family so that the code
tests `e.event_code.startsWith(type)`. -/
def getFilteredEvents (half : Option Nat) (team : Option String)
    (type : Option String) (events : List Event) : List Event :=
  events.filter (fun e =>
    (match half with
     | none => true
     | some h => e.half == h) &&
    (match team with
     | none => true
     | some t => e.event_code.endsWith ("_" ++ t)) &&
    (match type with
     | none => true
     | some ty => e.event_code.startsWith ty))

/-- Per-event update of `applyTimeAdjust` (`src/app.js:585-589`):
`{ ...e, t_half_seconds: Math.max(0, e.t_half_seconds + (e.half === 1 ? adjH1 : adjH2)) }`. -/
def adjustEvent (adjH1 adjH2 : Int) (e : Event) : Event :=
  { e with
      t_half_seconds :=
        max 0 (e.t_half_seconds + (if e.half = 1 then adjH1 else adjH2)) }

/-- Bulk time adjustment (`applyTimeAdjust`, `src/app.js:576-599`) after
the inputs have been coerced to integers.  The boolean records whether the
adjustment was applied and persisted: a zero-and-zero request returns with
a toast before touching or re-persisting any event. -/
def applyTimeAdjust (adjH1 adjH2 : Int) (events : List Event) :
    List Event × Bool :=
  if adjH1 = 0 ∧ adjH2 = 0 then (events, false)
  else (events.map (adjustEvent adjH1 adjH2), true)

/-- JavaScript `parseInt(s, 10)`: skip leading whitespace, read an optional
sign, then the longest run of decimal digits; `none` models `NaN` (no digit
found). -/
def jsParseInt (s : String) : Option Int :=
  let cs := s.toList.dropWhile fun c =>
    c == ' ' || c == '\t' || c == '\n' || c == '\r'
  let signAndRest : Bool × List Char :=
    match cs with
    | '-' :: r => (true, r)
    | '+' :: r => (false, r)
    | r => (false, r)
  let digits := signAndRest.2.takeWhile Char.isDigit
  if digits.isEmpty then none
  else
    let n : Nat := digits.foldl (fun acc c => acc * 10 + (c.toNat - 48)) 0
    some (if signAndRest.1 then -(n : Int) else (n : Int))

/-- Input coercion of `applyTimeAdjust` (`src/app.js:577-578`):
`parseInt(input.value, 10) || 0` — `NaN` (and `0` itself) becomes `0`. -/
def coerceAdjInput (s : String) : Int :=
  (jsParseInt s).getD 0

/-- The full `applyTimeAdjust` handler on the raw text of the two offset
inputs (`src/app.js:576-599`). -/
def applyTimeAdjustFromInputs (rawH1 rawH2 : String)
    (events : List Event) : List Event × Bool :=
  applyTimeAdjust (coerceAdjInput rawH1) (coerceAdjInput rawH2) events

/-- End-game handler (`endGame`, `src/app.js:495-505`): stops the clock
and clears the live flag; the game and events stay in memory for review. -/
def endGame (st : SessionState) : SessionState :=
  { st with clockRunning := false, gameActive := false }

/-- Resume-logging button handler (`src/app.js:238-243`): shows the
logging screen and runs `if (!clockInterval && gameActive) startClock();`.
Nothing else in the handler touches the session state — in particular
`gameActive` is not set. -/
def resumeLogging (st : SessionState) : SessionState :=
  if st.clockRunning = false ∧ st.gameActive = true then
    { st with clockRunning := true }
  else st

/-- Chronological re-sort after loading a saved game (`loadSavedGame`,
`src/app.js:722-726`): the comparator orders by `half` and then by
`t_half_seconds`, both ascending. -/
def loadSortEvents (events : List Event) : List Event :=
  events.mergeSort fun a b =>
    decide (a.half < b.half ∨
      (a.half = b.half ∧ a.t_half_seconds ≤ b.t_half_seconds))

/-- Saved-games listing order (`viewSavedGames`, `src/app.js:677-678`):
`games.sort((a, b) => new Date(b.date) - new Date(a.date))`, newest first.
Every stored `date` is produced by `new Date().toISOString()`, a UTC
ISO-8601 instant of fixed width, on which chronological comparison agrees
with lexicographic string comparison; the comparator is embedded as the
string comparison. -/
def viewSavedGamesOrder (games : List Game) : List Game :=
  games.mergeSort fun a b => decide (b.date ≤ a.date)

/-- Opponent sanitization of `buildFilename` (`src/app.js:652`):
`opponent.replace(/[^a-z0-9]/gi, '_').slice(0, 20)` — every character
outside `[A-Za-z0-9]` is replaced by an underscore, then the result is
truncated to 20 characters. -/
def sanitizeOpponent (opponent : String) : String :=
  (((opponent.toList.map fun c =>
      if c.isAlphanum then c else '_')).take 20).asString

/-- Export filename (`buildFilename`, `src/app.js:650-654`).  The stored
`date` is a UTC ISO-8601 instant written by `new Date().toISOString()`,
so parsing and re-serializing it is the identity and `slice(0, 10)` is
`String.take 10`. -/
def buildFilename (g : Game) (ext : String) : String :=
  "GameMoments_" ++ g.date.take 10 ++ "_" ++ sanitizeOpponent g.opponent
    ++ "." ++ ext

/-- Modelled from the spec: "a sanitized opponent name (non-alphanumeric
characters stripped, truncated to 20 characters)" — stripping removes the
characters instead of replacing them. -/
def stripOpponentSpec (opponent : String) : String :=
  ((opponent.toList.filter Char.isAlphanum).take 20).asString

/-- Modelled from the spec: the filename with the stripped (rather than
underscore-replaced) opponent name. -/
def buildFilenameSpec (g : Game) (ext : String) : String :=
  "GameMoments_" ++ g.date.take 10 ++ "_" ++ stripOpponentSpec g.opponent
    ++ "." ++ ext

/-! ### Theorems -/

/-- Accumulator form of the `updateScoreboard` counting loop. -/
theorem updateScoreboard_foldl_aux (L : List Event) (p q : Nat) :
    L.foldl
      (fun acc e =>
        if e.event_code = "GOAL_PFC" then (acc.1 + 1, acc.2)
        else if e.event_code = "GOAL_OPP" then (acc.1, acc.2 + 1)
        else acc)
      (p, q) =
    (p + L.countP (fun e => e.event_code = "GOAL_PFC"),
     q + L.countP (fun e => e.event_code = "GOAL_OPP")) := by
  induction L generalizing p q with
  | nil => simp
  | cons e L ih =>
    simp only [List.foldl_cons, List.countP_cons]
    by_cases h1 : e.event_code = "GOAL_PFC"
    · have h2 : e.event_code ≠ "GOAL_OPP" := by simp [h1]
      simp [h1, h2, ih, Prod.mk.injEq]
      all_goals omega
    · by_cases h2 : e.event_code = "GOAL_OPP"
      · simp [h1, h2, ih, Prod.mk.injEq]
        all_goals omega
      · simp [h1, h2, ih]

/-- C1.  The scoreboard is the pair of `GOAL_PFC` and `GOAL_OPP` counts of
the event list; the review surface computes the same pair from the
unfiltered list (`reviewScore` takes no filter settings); and the
scoreboard depends only on the `event_code` column, not on any other
field. -/
theorem scoreboard_counts_goals (L : List Event) :
    updateScoreboard L =
      (L.countP (fun e => e.event_code = "GOAL_PFC"),
       L.countP (fun e => e.event_code = "GOAL_OPP"))
    ∧ reviewScore L = updateScoreboard L
    ∧ ∀ L' : List Event,
        L.map Event.event_code = L'.map Event.event_code →
          updateScoreboard L = updateScoreboard L' := by
  have key : ∀ M : List Event, updateScoreboard M =
      (M.countP (fun e => e.event_code = "GOAL_PFC"),
       M.countP (fun e => e.event_code = "GOAL_OPP")) := by
    intro M
    have h := updateScoreboard_foldl_aux M 0 0
    simp only [Nat.zero_add] at h
    exact h
  refine ⟨key L, ?_, ?_⟩
  · rw [key L]
    simp [reviewScore, List.countP_eq_length_filter]
  · intro L' h
    rw [key L, key L']
    have cnt : ∀ (M : List Event) (s : String),
        M.countP (fun e => e.event_code = s) =
          (M.map Event.event_code).countP (fun c => c = s) := by
      intro M s
      rw [List.countP_map]
      rfl
    rw [cnt L "GOAL_PFC", cnt L "GOAL_OPP", cnt L' "GOAL_PFC",
      cnt L' "GOAL_OPP", h]

/-- C5.  `getFilteredEvents` is pure and order-preserving: with every axis
set to `'all'` it returns the list unchanged, its output is always a
sublist (subsequence) of the input, and an event is in the output exactly
when it is in the input and matches the selected half, the selected side
suffix, and the selected family prefix. -/
theorem getFilteredEvents_spec (half : Option Nat) (team : Option String)
    (type : Option String) (L : List Event) :
    getFilteredEvents none none none L = L
    ∧ (getFilteredEvents half team type L).Sublist L
    ∧ ∀ e : Event,
        e ∈ getFilteredEvents half team type L ↔
          e ∈ L ∧ (∀ h ∈ half, e.half = h)
            ∧ (∀ t ∈ team, e.event_code.endsWith ("_" ++ t) = true)
            ∧ (∀ ty ∈ type, e.event_code.startsWith ty = true) := by
  refine ⟨by simp [getFilteredEvents], List.filter_sublist _, ?_⟩
  intro e
  simp only [getFilteredEvents, List.mem_filter, Bool.and_eq_true]
  cases half <;> cases team <;> cases type <;>
    simp [and_assoc]

/-- C4.  A zero-and-zero time adjustment is rejected before any change or
persistence; otherwise the adjustment is applied and persisted, and the
result pairs each old event with a new one that keeps every field except
`t_half_seconds`, which becomes `max 0 (old + adjH1)` for Half-1 events
and `max 0 (old + adjH2)` for Half-2 events — never negative. -/
theorem applyTimeAdjust_spec (adjH1 adjH2 : Int) (L : List Event) :
    (adjH1 = 0 ∧ adjH2 = 0 → applyTimeAdjust adjH1 adjH2 L = (L, false))
    ∧ (¬ (adjH1 = 0 ∧ adjH2 = 0) →
        (applyTimeAdjust adjH1 adjH2 L).2 = true
        ∧ List.Forall₂
            (fun old new =>
              new.event_id = old.event_id ∧ new.game_id = old.game_id
              ∧ new.half = old.half ∧ new.event_code = old.event_code
              ∧ new.created_at = old.created_at
              ∧ (old.half = 1 →
                  new.t_half_seconds = max 0 (old.t_half_seconds + adjH1))
              ∧ (old.half = 2 →
                  new.t_half_seconds = max 0 (old.t_half_seconds + adjH2))
              ∧ 0 ≤ new.t_half_seconds)
            L (applyTimeAdjust adjH1 adjH2 L).1) := by
  constructor
  · intro h
    simp [applyTimeAdjust, h]
  · intro h
    constructor
    · simp [applyTimeAdjust, h]
    · have : (applyTimeAdjust adjH1 adjH2 L).1 =
          L.map (adjustEvent adjH1 adjH2) := by
        simp [applyTimeAdjust, h]
      rw [this]
      rw [List.forall₂_map_right_iff]
      rw [List.forall₂_same]
      intro e _
      refine ⟨rfl, rfl, rfl, rfl, rfl, ?_, ?_, le_max_left 0 _⟩
      · intro h1
        simp [adjustEvent, h1]
      · intro h2
        simp [adjustEvent, h2]

/-- C10.  The time-adjust handler coerces each raw offset input with
`parseInt(·, 10) || 0`, so an unparseable (`NaN`) input acts as `0`; when
both inputs are unparseable the request is the zero-and-zero no-op:
nothing is modified or persisted.  The empty string and `"abc"` are such
unparseable inputs. -/
theorem timeAdjust_bad_inputs_coerce_to_zero (rawH1 rawH2 : String)
    (L : List Event) :
    applyTimeAdjustFromInputs rawH1 rawH2 L =
      applyTimeAdjust ((jsParseInt rawH1).getD 0) ((jsParseInt rawH2).getD 0) L
    ∧ (jsParseInt rawH1 = none → jsParseInt rawH2 = none →
        applyTimeAdjustFromInputs rawH1 rawH2 L = (L, false))
    ∧ jsParseInt "" = none ∧ jsParseInt "abc" = none := by
  refine ⟨rfl, ?_, by decide, by decide⟩
  intro h1 h2
  simp [applyTimeAdjustFromInputs, coerceAdjInput, h1, h2, applyTimeAdjust]

/-- C3.  `logEvent` leaves the whole session state unchanged when no game
exists or the session is not live; when live it appends exactly one event
whose `half` is the current half counter, whose `t_half_seconds` is the
current clock value, whose `game_id` is the current game's id and whose
code is the tapped code, leaving every previously logged event (and the
rest of the session state) unchanged. -/
theorem logEvent_spec (st : SessionState) (code freshId createdAt : String) :
    ((st.currentGame = none ∨ st.gameActive = false) →
      logEvent code freshId createdAt st = st)
    ∧ (∀ g : Game, st.currentGame = some g → st.gameActive = true →
        ∃ ev : Event,
          (logEvent code freshId createdAt st).currentEvents
              = st.currentEvents ++ [ev]
          ∧ ev.half = st.currentHalf
          ∧ ev.t_half_seconds = (st.clockSeconds : Int)
          ∧ ev.game_id = g.game_id
          ∧ ev.event_code = code
          ∧ (logEvent code freshId createdAt st).currentGame = st.currentGame
          ∧ (logEvent code freshId createdAt st).currentHalf = st.currentHalf
          ∧ (logEvent code freshId createdAt st).clockSeconds = st.clockSeconds
          ∧ (logEvent code freshId createdAt st).gameActive = st.gameActive) := by
  constructor
  · rintro (hg | ha)
    · simp [logEvent, hg]
    · cases hcg : st.currentGame with
      | none => simp [logEvent, hcg]
      | some g => simp [logEvent, hcg, ha]
  · intro g hg ha
    refine ⟨{ event_id := freshId, game_id := g.game_id, half := st.currentHalf,
              t_half_seconds := (st.clockSeconds : Int), event_code := code,
              created_at := createdAt },
            ?_, rfl, rfl, rfl, rfl, ?_, ?_, ?_, ?_⟩ <;>
      simp [logEvent, hg, ha]

/-- C2.  Undo immediately after logging restores the whole session state:
the appended event is popped from the in-memory list and deleted by its id
from the store, so for a live session with a fresh event id,
`undo(append(L, e)) = L`. -/
theorem undo_append_roundtrip (st : SessionState) (g : Game)
    (code freshId createdAt : String)
    (hg : st.currentGame = some g) (ha : st.gameActive = true)
    (hfresh : ∀ e ∈ st.eventStore, e.event_id ≠ freshId) :
    undoLastEvent (logEvent code freshId createdAt st) = st := by
  have hany : st.eventStore.any (fun e => e.event_id == freshId) = false := by
    rw [List.any_eq_false]
    intro e he
    simpa using hfresh e he
  have hkeep : ∀ e ∈ st.eventStore, (e.event_id != freshId) = true := by
    intro e he
    simpa using hfresh e he
  simp only [logEvent, hg, ha]
  simp only [Bool.true_eq_false, if_false, ite_false, reduceIte]
  simp only [undoLastEvent, List.getLast?_concat, List.dropLast_concat]
  simp only [dbPut, hany, Bool.false_eq_true, if_false, ite_false, reduceIte]
  simp only [dbDelete, List.filter_append]
  rw [List.filter_eq_self.mpr hkeep]
  simp only [bne_self_eq_false, Bool.false_eq_true, not_false_eq_true,
    List.filter_cons_of_neg, List.filter_nil, List.append_nil]
  rw [← hg, ← ha]

/-- Witness for C2: a concrete live session (one prior event) restored by
append-then-undo. -/
theorem undo_append_roundtrip_witness :
    undoLastEvent (logEvent "CK_OPP" "ev_42" "2026-10-10T18:10:00.000Z"
      { currentGame := some { game_id := "game_1",
                              date := "2026-10-10T18:00:00.000Z",
                              opponent := "Riverside",
                              logger_name := "Coach A" },
        currentEvents := [{ event_id := "ev_41", game_id := "game_1",
                            half := 1, t_half_seconds := 100,
                            event_code := "GOAL_PFC",
                            created_at := "2026-10-10T18:05:00.000Z" }],
        currentHalf := 1, clockSeconds := 125, clockRunning := true,
        gameActive := true,
        eventStore := [{ event_id := "ev_41", game_id := "game_1",
                         half := 1, t_half_seconds := 100,
                         event_code := "GOAL_PFC",
                         created_at := "2026-10-10T18:05:00.000Z" }] })
      = { currentGame := some { game_id := "game_1",
                                date := "2026-10-10T18:00:00.000Z",
                                opponent := "Riverside",
                                logger_name := "Coach A" },
          currentEvents := [{ event_id := "ev_41", game_id := "game_1",
                              half := 1, t_half_seconds := 100,
                              event_code := "GOAL_PFC",
                              created_at := "2026-10-10T18:05:00.000Z" }],
          currentHalf := 1, clockSeconds := 125, clockRunning := true,
          gameActive := true,
          eventStore := [{ event_id := "ev_41", game_id := "game_1",
                           half := 1, t_half_seconds := 100,
                           event_code := "GOAL_PFC",
                           created_at := "2026-10-10T18:05:00.000Z" }] } :=
  undo_append_roundtrip _ _ _ _ _ rfl rfl (by decide)

/-- A live session in its second half, as left by the logging flow just
before the end-game button is pressed. -/
def c6LiveSession : SessionState :=
  { currentGame := some { game_id := "game_1",
                          date := "2026-10-10T18:00:00.000Z",
                          opponent := "Riverside",
                          logger_name := "Coach A" },
    currentEvents := [],
    currentHalf := 2, clockSeconds := 300, clockRunning := true,
    gameActive := true, eventStore := [] }

/-- C6 (divergence witness).  Evaluating the code on the failing input:
after `endGame` on a live session followed by the resume-logging handler,
the session is still not live, the clock is still stopped (the handler's
`if (!clockInterval && gameActive) startClock()` guard is dead because
`endGame` cleared `gameActive` and nothing sets it again), and logging an
event is a no-op — contradicting the claim that resume returns the
session to Active with the clock running on. -/
theorem resume_after_endGame_not_live :
    (resumeLogging (endGame c6LiveSession)).gameActive = false
    ∧ (resumeLogging (endGame c6LiveSession)).clockRunning = false
    ∧ logEvent "GOAL_PFC" "ev_9" "2026-10-10T19:00:00.000Z"
        (resumeLogging (endGame c6LiveSession))
      = resumeLogging (endGame c6LiveSession) := by
  decide

/-- C7.  Loading a saved game re-sorts the fetched events into `half`
ascending then `t_half_seconds` ascending order, whatever order the store
returned them in: the result is a permutation of the input, pairwise in
that lexicographic order, and the spec's scenario (events at H2 5s, H1
30s, H1 5s) comes out as H1 5s, H1 30s, H2 5s. -/
theorem loadSavedGame_orders_events (L : List Event) :
    (loadSortEvents L).Perm L
    ∧ (loadSortEvents L).Pairwise (fun a b =>
        a.half < b.half ∨ (a.half = b.half ∧ a.t_half_seconds ≤ b.t_half_seconds))
    ∧ loadSortEvents
        [{ event_id := "e1", game_id := "g", half := 2, t_half_seconds := 5,
           event_code := "GK_PFC", created_at := "t1" },
         { event_id := "e2", game_id := "g", half := 1, t_half_seconds := 30,
           event_code := "CK_OPP", created_at := "t2" },
         { event_id := "e3", game_id := "g", half := 1, t_half_seconds := 5,
           event_code := "FK_PFC", created_at := "t3" }]
      = [{ event_id := "e3", game_id := "g", half := 1, t_half_seconds := 5,
           event_code := "FK_PFC", created_at := "t3" },
         { event_id := "e2", game_id := "g", half := 1, t_half_seconds := 30,
           event_code := "CK_OPP", created_at := "t2" },
         { event_id := "e1", game_id := "g", half := 2, t_half_seconds := 5,
           event_code := "GK_PFC", created_at := "t1" }] := by
  refine ⟨List.mergeSort_perm L _, ?_, ?_⟩
  · unfold loadSortEvents
    refine List.Pairwise.imp (fun h => of_decide_eq_true h)
      (List.sorted_mergeSort ?_ ?_ L)
    · intro a b c hab hbc
      simp only [decide_eq_true_eq] at hab hbc ⊢
      omega
    · intro a b
      simp only [Bool.or_eq_true, decide_eq_true_eq]
      omega
  · simp [loadSortEvents, List.mergeSort]

/-- C9.  The saved-games listing presents the stored games sorted newest
first: the listing order is a permutation of the stored games, pairwise
descending in the `date` field. -/
theorem viewSavedGames_newest_first (games : List Game) :
    (viewSavedGamesOrder games).Perm games
    ∧ (viewSavedGamesOrder games).Pairwise (fun a b => b.date ≤ a.date) := by
  refine ⟨List.mergeSort_perm games _, ?_⟩
  unfold viewSavedGamesOrder
  refine List.Pairwise.imp (fun h => of_decide_eq_true h)
    (List.sorted_mergeSort ?_ ?_ games)
  · intro a b c hab hbc
    simp only [decide_eq_true_eq] at hab hbc ⊢
    exact le_trans hbc hab
  · intro a b
    simp only [Bool.or_eq_true, decide_eq_true_eq]
    exact le_total b.date a.date

/-- Counterexample to C8 as stated: for the opponent name `"A B"` the code
replaces the space with an underscore (`A_B`) while the claimed stripping
would remove it (`AB`); the produced filename differs from the
stripped-name filename. -/
theorem buildFilename_not_stripped_cex :
    buildFilename { game_id := "game_1", date := "2024-01-02T03:04:05.000Z",
                    opponent := "A B", logger_name := "L" } "csv"
      = "GameMoments_2024-01-02_A_B.csv"
    ∧ buildFilenameSpec { game_id := "game_1",
                          date := "2024-01-02T03:04:05.000Z",
                          opponent := "A B", logger_name := "L" } "csv"
      = "GameMoments_2024-01-02_AB.csv"
    ∧ ("GameMoments_2024-01-02_A_B.csv" : String)
        ≠ "GameMoments_2024-01-02_AB.csv" := by
  refine ⟨rfl, rfl, ?_⟩
  decide

/-- C8 as amended.  The export filename embeds the game's date reduced to
its ISO date portion and a sanitized opponent name in which every
non-alphanumeric character is replaced by an underscore (rather than
stripped), truncated to 20 characters: the sanitized name is at most 20
characters, each of them alphanumeric or an underscore, and is exactly the
character-wise replacement of the opponent name truncated to 20. -/
theorem buildFilename_sanitized (g : Game) (ext : String) :
    buildFilename g ext =
      "GameMoments_" ++ g.date.take 10 ++ "_" ++ sanitizeOpponent g.opponent
        ++ "." ++ ext
    ∧ (sanitizeOpponent g.opponent).length ≤ 20
    ∧ (∀ c ∈ (sanitizeOpponent g.opponent).toList,
        c.isAlphanum = true ∨ c = '_')
    ∧ (sanitizeOpponent g.opponent).toList
        = (g.opponent.toList.map fun c =>
            if c.isAlphanum then c else '_').take 20 := by
  refine ⟨rfl, ?_, ?_, ?_⟩
  · simp only [sanitizeOpponent]
    rw [String.length]
    simp [List.length_take]
  · intro c hc
    simp only [sanitizeOpponent, List.asString] at hc
    have hc' := List.mem_of_mem_take hc
    obtain ⟨d, _, hd⟩ := List.mem_map.mp hc'
    by_cases hda : d.isAlphanum
    · left; rw [← hd]; simp [hda]
    · right; rw [← hd]; simp [hda]
  · simp [sanitizeOpponent, List.asString]

end GameMoments
